import Mathlib

/-!
Verification of the campaign scheduling / dispatch / retry engine of this
repository.  Each Python module that the specification's claims touch is
shallowly embedded as executable Lean definitions; timestamps are modelled
as rationals (Python `time.time()` floats), Redis-backed state is modelled
as explicit state records passed through each operation.
-/

set_option maxHeartbeats 2000000

/- Batteries marks the rational arithmetic operations `@[irreducible]`,
which blocks `decide`/`rfl` evaluation of the timestamp computations; the
kernel ignores reducibility anyway, so re-marking them `semireducible`
only lets elaboration see what the kernel already checks. -/
set_option allowUnsafeReducibility true
attribute [semireducible] Rat.add Rat.sub Rat.mul Rat.div Rat.inv

namespace RateLimiter

/-!
Embedding of `app/utils/rate_limiter.py` (`RateLimiter.check_rate_limit`).

The Redis sorted set entries for one key are `{str(ts): ts}`: the member
string determines the score bijectively (`str` is injective on float
timestamps), so the set is modelled as a list of scores with `zadd`
replacing an already-present member.  `zremrangebyscore key 0 window_start`
removes every score in the closed interval `[0, window_start]`.  The
`expire(key, window_seconds)` whole-key TTL only ever discards entries the
purge would remove anyway (every stored score is at most the time of the
last `zadd`), so it is not modelled separately.
-/

/-- One key's sorted-set entries: the recorded timestamp scores. -/
abbrev State := List ℚ

/-- `zremrangebyscore key 0 windowStart`. -/
def purge (entries : State) (windowStart : ℚ) : State :=
  entries.filter (fun s => !(decide (0 ≤ s) && decide (s ≤ windowStart)))

/-- `zadd key {str(now): now}`: inserts the score, replacing an equal member. -/
def zadd (entries : State) (now : ℚ) : State :=
  if entries.contains now then entries else now :: entries

/-- `RateLimiter.check_rate_limit(key, limit, window_seconds)`.
Returns `((is_allowed, remaining), new entries)`. -/
def check_rate_limit (entries : State) (now : ℚ) (limit : ℕ) (window : ℚ) :
    (Bool × ℕ) × State :=
  let windowStart := now - window
  let purged := purge entries windowStart
  let currentCount := purged.length
  if currentCount < limit then
    ((true, limit - currentCount - 1), zadd purged now)
  else
    ((false, 0), purged)

/-- A sequence of calls against one key: returns the allowed-flag of each
call together with the final entries. -/
def runCalls (entries : State) (limit : ℕ) (window : ℚ) :
    List ℚ → List Bool × State
  | [] => ([], entries)
  | t :: ts =>
    let r := check_rate_limit entries t limit window
    let rest := runCalls r.2 limit window ts
    (r.1.1 :: rest.1, rest.2)

/-- 101 call instants, all within 60 seconds of the first (call `k` at
`k/2` seconds, `k = 0, …, 100`). -/
def burstTimes : List ℚ := (List.range 101).map (fun k => (k : ℚ) / 2)

end RateLimiter

namespace Idempotency

/-!
Embedding of `app/utils/idempotency.py` (`IdempotencyService`).

The Redis store is a list of `(key, value, expiry)` triples; a key exists
exactly while `now < expiry` (`set ... ex=ttl` stores until `now + ttl`).
In `generate_key` the arguments are stringified and joined with `"|"`
before hashing, so the SHA-256 function itself is abstracted as an
arbitrary function of the combined string.
-/

/-- `IdempotencyService.generate_key(*args)`: `sha256("|".join(str(a)))`.
`hash` abstracts `hashlib.sha256(...).hexdigest()` (a fixed deterministic
function of the combined string); string arguments satisfy `str(a) = a`. -/
def generate_key (hash : String → String) (args : List String) : String :=
  hash (String.intercalate "|" args)

/-- Redis key-value store with per-key expiry instants. -/
abbrev Store := List (String × String × ℚ)

/-- `redis.get` / `redis.exists`: a key is visible while `now < expiry`. -/
def redisGet (st : Store) (k : String) (now : ℚ) : Option String :=
  match st.find? (fun e => e.1 = k) with
  | some e => if now < e.2.2 then some e.2.1 else none
  | none => none

/-- `redis.set k v ex=ttl` at time `now`. -/
def redisSet (st : Store) (k v : String) (expiry : ℚ) : Store :=
  (k, v, expiry) :: st.filter (fun e => !(decide (e.1 = k)))

/-- `IdempotencyService.is_processed(key)`. -/
def is_processed (st : Store) (key : String) (now : ℚ) : Bool :=
  (redisGet st ("idempotency:" ++ key) now).isSome

/-- The value `mark_processed` stores: `result or "processed"` — Python
treats the empty string as falsy. -/
def storedValue (result : Option String) : String :=
  match result with
  | some r => if r = "" then "processed" else r
  | none => "processed"

/-- `IdempotencyService.mark_processed(key, result)` at time `now`. -/
def mark_processed (st : Store) (key : String) (result : Option String)
    (now ttl : ℚ) : Store :=
  redisSet st ("idempotency:" ++ key) (storedValue result) (now + ttl)

/-- `IdempotencyService.get_result(key)`. -/
def get_result (st : Store) (key : String) (now : ℚ) : Option String :=
  redisGet st ("idempotency:" ++ key) now

/-- `IdempotencyService.process_once(key, func)` at time `now`; the third
component records whether `func` was executed. -/
def process_once (st : Store) (ttl : ℚ) (key : String) (f : Unit → String)
    (now : ℚ) : Option String × Store × Bool :=
  if is_processed st key now then
    (get_result st key now, st, false)
  else
    let result := f ()
    (some result, mark_processed st key (some result) now ttl, true)

end Idempotency

namespace CircuitBreaker

/-!
Embedding of `app/utils/circuit_breaker.py` (`CircuitBreaker`).

The three Redis keys of a named breaker are one record: the stored state
string (`none` = key absent), the failure counter together with its expiry
instant (`incr` then `expire(key, recovery_timeout)`), and the last-failure
timestamp.  All operations take the current time explicitly.
-/

/-- The `CircuitState` enum. `opn` embeds `OPEN` (a Lean keyword). -/
inductive CircuitState where
  | closed
  | opn
  | halfOpen
deriving DecidableEq, Repr

structure Config where
  failureThreshold : ℕ := 5
  recoveryTimeout : ℚ := 60

structure BreakerState where
  state : Option CircuitState
  failures : Option (ℕ × ℚ)
  lastFailure : Option ℚ
deriving DecidableEq, Repr

/-- A fresh breaker: no Redis keys set. -/
def initial : BreakerState := ⟨none, none, none⟩

/-- The failure counter visible at time `now` (an expired counter key reads
as absent, hence 0). -/
def effFailures (st : BreakerState) (now : ℚ) : ℕ :=
  match st.failures with
  | some c => if now < c.2 then c.1 else 0
  | none => 0

/-- `CircuitBreaker.get_state(name)`: lazily moves `open` to `half_open`
once `recovery_timeout` has elapsed since the last failure; returns the
observed state together with the (possibly updated) stored state. -/
def get_state (cfg : Config) (st : BreakerState) (now : ℚ) :
    CircuitState × BreakerState :=
  match st.state with
  | none => (CircuitState.closed, st)
  | some s =>
    if s = CircuitState.opn then
      match st.lastFailure with
      | some lf =>
        if cfg.recoveryTimeout ≤ now - lf then
          (CircuitState.halfOpen, { st with state := some CircuitState.halfOpen })
        else (CircuitState.opn, st)
      | none => (CircuitState.opn, st)
    else (s, st)

/-- `CircuitBreaker.record_success(name)`: force `closed`, delete the
failure counter. -/
def record_success (st : BreakerState) : BreakerState :=
  { st with state := some CircuitState.closed, failures := none }

/-- `CircuitBreaker.record_failure(name)`: `incr` + `expire` the counter,
stamp the failure time, open the circuit at the threshold. -/
def record_failure (cfg : Config) (st : BreakerState) (now : ℚ) : BreakerState :=
  let c := effFailures st now + 1
  let st1 : BreakerState :=
    { st with failures := some (c, now + cfg.recoveryTimeout), lastFailure := some now }
  if cfg.failureThreshold ≤ c then { st1 with state := some CircuitState.opn } else st1

/-- `record_failure` applied to a sequence of call instants. -/
def record_failures (cfg : Config) (st : BreakerState) (ts : List ℚ) : BreakerState :=
  ts.foldl (record_failure cfg) st

/-- Outcome of `CircuitBreaker.call`: rejected because the circuit is open
(the wrapped function is never invoked), returned normally, or re-raised
the wrapped function's exception. -/
inductive CallResult where
  | raisedOpn
  | returned
  | raisedErr
deriving DecidableEq, Repr

/-- `CircuitBreaker.call(name, func)`: `ok` tells whether `func` would
succeed if invoked. -/
def call (cfg : Config) (st : BreakerState) (now : ℚ) (ok : Bool) :
    CallResult × BreakerState :=
  let s := get_state cfg st now
  if s.1 = CircuitState.opn then (CallResult.raisedOpn, s.2)
  else if ok then (CallResult.returned, record_success s.2)
  else (CallResult.raisedErr, record_failure cfg s.2 now)

end CircuitBreaker

namespace TimezoneHelper

/-!
Embedding of `app/utils/timezone_helper.py` (`is_within_schedule`,
`get_next_available_time`).

A local civil instant is a day index plus hour/minute/second; day 0 is a
Monday, so Python's `weekday()` (Monday = 0) is `day % 7`.  A blackout
date `"YYYY-MM-DD"` is identified with its day index (date strings and day
indices are in bijection); `blackout_dates=None` is modelled as `[]`,
which Python's truthiness test treats identically (membership in an empty
list never holds).

`get_next_available_time` advances to the next day with
`next_time + pytz.timedelta(days=1)` and falls back to
`current_time + pytz.timedelta(days=1)` — but the `pytz` module has no
`timedelta` attribute (it does `import datetime`, re-exporting nothing),
so both lines raise `AttributeError` at runtime.  The embedding keeps the
14-iteration loop structure and returns `Except.error` exactly where the
Python code raises.
-/

structure LocalTime where
  day : ℕ
  hour : ℕ
  minute : ℕ
  second : ℕ
deriving DecidableEq, Repr

/-- Python `datetime.weekday()`: Monday = 0 … Sunday = 6. -/
def weekday (t : LocalTime) : ℕ := t.day % 7

/-- `TimezoneHelper.is_within_schedule`. -/
def is_within_schedule (t : LocalTime) (startHour endHour : ℕ)
    (allowedDays : List ℕ) (blackoutDates : List ℕ) : Bool :=
  if !(allowedDays.contains (weekday t)) then false
  else if !(decide (startHour ≤ t.hour) && decide (t.hour < endHour)) then false
  else if blackoutDates.contains t.day then false
  else true

/-- The exception `pytz.timedelta(...)` raises: `pytz` has no such
attribute. -/
def pytzError : String := "AttributeError: module pytz has no attribute timedelta"

/-- The `for _ in range(14)` loop body of `get_next_available_time`.
Every path that does not return inside the first iteration executes
`pytz.timedelta`, which raises. -/
def nextAvailableGo (startHour endHour : ℕ) (allowedDays : List ℕ) :
    ℕ → LocalTime → Except String LocalTime
  | 0, _ =>
    -- fallback `current_time + pytz.timedelta(days=1)`: also raises
    Except.error pytzError
  | _ + 1, cur =>
    if allowedDays.contains (weekday cur) then
      if cur.hour < startHour then
        Except.ok { cur with hour := startHour, minute := 0, second := 0 }
      else if cur.hour < endHour then
        Except.ok cur
      else
        -- `next_time + pytz.timedelta(days=1)`: raises before recursing
        Except.error pytzError
    else
      Except.error pytzError

/-- `TimezoneHelper.get_next_available_time` (the function takes no
blackout-dates argument). -/
def get_next_available_time (t : LocalTime) (startHour endHour : ℕ)
    (allowedDays : List ℕ) : Except String LocalTime :=
  nextAvailableGo startHour endHour allowedDays 14 t

end TimezoneHelper

namespace SmartDispatcher

/-!
Embedding of `app/workers/smart_dispatcher.py`
(`_dispatch_campaign_target_async`, `_dispatch_sms/whatsapp/email/voice`,
`_handle_dispatch_failure`).

Time is in seconds (`timedelta(minutes=1)` is 60, a retry delay of `d`
minutes is `60 * d`).  A target's `extra_data` JSON map is a string-keyed
association list; the Python boolean `True` stored under
`max_retries_exceeded` is rendered as `"True"`.
-/

/-- A `CampaignTarget` row (the fields the dispatcher touches). -/
structure Target where
  status : String
  attemptCount : ℕ
  nextAttemptAt : Option ℚ
  lastAttemptAt : Option ℚ
  extraData : List (String × String)
deriving DecidableEq, Repr

/-- `extra_data[k] = v` (dict assignment). -/
def setExtra (m : List (String × String)) (k v : String) : List (String × String) :=
  (k, v) :: m.filter (fun p => !(decide (p.1 = k)))

/-- `extra_data.get(k)`. -/
def getExtra (m : List (String × String)) (k : String) : Option String :=
  (m.find? (fun p => p.1 = k)).map (fun p => p.2)

/-- The campaign's `retry_strategy` JSONB: `.get("max_attempts", 3)` and
`.get("delays_minutes", [30, 120, 360])` read optional entries. -/
structure RetryStrategy where
  maxAttempts : Option ℕ
  delaysMinutes : Option (List ℕ)
deriving Repr

/-- `_handle_dispatch_failure(target, campaign, error, db)`.  Python
indexes `delays[delay_index]` directly; the `getD _ 0` default is only
reachable when the delay list is empty, where Python would raise
`IndexError` (the theorems assume a non-empty list). -/
def handle_dispatch_failure (target : Target) (strategy : RetryStrategy)
    (error : String) (now : ℚ) : Target :=
  let t1 := { target with
    attemptCount := target.attemptCount + 1,
    lastAttemptAt := some now }
  let maxAttempts := strategy.maxAttempts.getD 3
  if maxAttempts ≤ t1.attemptCount then
    { t1 with
      status := "failed",
      extraData := setExtra (setExtra t1.extraData "error" error)
        "max_retries_exceeded" "True" }
  else
    let delays := strategy.delaysMinutes.getD [30, 120, 360]
    let delayIndex := min (t1.attemptCount - 1) (delays.length - 1)
    let delayMinutes := delays.getD delayIndex 0
    { t1 with
      status := "retrying",
      nextAttemptAt := some (now + 60 * (delayMinutes : ℚ)),
      extraData := setExtra t1.extraData "last_error" error }

/-- One `_dispatch_<channel>` body: enqueue the send task (modelled by
`sendOk`: whether `send_task` returns without raising), then stamp
`last_attempt_at` and bump `attempt_count`; on exception, route to
`_handle_dispatch_failure`. -/
def dispatchChannel (target : Target) (strategy : RetryStrategy)
    (now : ℚ) (sendOk : Bool) (errMsg : String) : Target :=
  if sendOk then
    { target with
      lastAttemptAt := some now,
      attemptCount := target.attemptCount + 1 }
  else
    handle_dispatch_failure target strategy errMsg now

/-- `_dispatch_campaign_target_async` after the entity lookups succeed:
the rate-limit gate (limit 100, window 60 s on the tenant/channel key) and
the channel dispatch. -/
def dispatch_campaign_target (target : Target) (channel : String)
    (strategy : RetryStrategy) (rl : RateLimiter.State) (now : ℚ)
    (sendOk : Bool) (errMsg : String) : Target × RateLimiter.State :=
  let r := RateLimiter.check_rate_limit rl now 100 60
  if !r.1.1 then
    -- Reschedule for 1 minute later and return
    ({ target with nextAttemptAt := some (now + 60) }, r.2)
  else if channel = "sms" ∨ channel = "whatsapp" ∨ channel = "email" ∨
      channel = "voice" then
    (dispatchChannel target strategy now sendOk errMsg, r.2)
  else
    ({ target with
        status := "failed",
        extraData := setExtra target.extraData "error"
          ("Unknown channel: " ++ channel) }, r.2)

end SmartDispatcher

namespace CampaignScheduler

/-!
Embedding of `app/workers/campaign_scheduler.py`
(`_process_pending_targets_async`) as an interleaving model of several
scheduler instances acting on one shared target row.

Each instance executes two visible database steps: `select` (its
`SELECT ... WHERE status IN ('pending','retrying') AND next_attempt_at <=
now AND deleted_at IS NULL` snapshot — a plain read with no row lock) and
`process` (the loop body for a selected target: re-read the campaign,
enqueue `dispatch_campaign_target`, set `status = 'processing'`, commit).
Nothing in the code orders one instance's `process` before another
instance's `select`, so every interleaving of these steps is a possible
execution.
-/

/-- The target row fields the scheduler's query filters on. -/
structure TargetRow where
  status : String
  nextAttemptAt : ℚ
  deletedAt : Option ℚ
deriving DecidableEq, Repr

/-- The `WHERE` clause of the scheduler's select. -/
def eligible (t : TargetRow) (now : ℚ) : Bool :=
  (t.status = "pending" ∨ t.status = "retrying") ∧
    t.nextAttemptAt ≤ now ∧ t.deletedAt = none

/-- Shared database row plus each worker's private select snapshot and the
number of `dispatch_campaign_target` tasks enqueued for this target. -/
structure SysState where
  target : TargetRow
  campaignStatus : String
  dispatchCount : ℕ
  snapshot : Fin 2 → Bool
deriving Repr

/-- An observable step of worker `w`. -/
inductive Ev where
  | select (w : Fin 2)
  | process (w : Fin 2)

/-- One step of the interleaved system at scan time `now`. -/
def step (now : ℚ) (s : SysState) : Ev → SysState
  | Ev.select w =>
    { s with snapshot := fun w1 => if w1 = w then eligible s.target now else s.snapshot w1 }
  | Ev.process w =>
    if s.snapshot w then
      if s.campaignStatus = "running" then
        { s with
          dispatchCount := s.dispatchCount + 1,
          target := { s.target with status := "processing" },
          snapshot := fun w1 => if w1 = w then false else s.snapshot w1 }
      else s
    else s

/-- Run a schedule of steps. -/
def run (now : ℚ) (evs : List Ev) (s : SysState) : SysState :=
  evs.foldl (step now) s

/-- A due pending target of a running campaign, before any scan. -/
def init : SysState :=
  { target := { status := "pending", nextAttemptAt := 0, deletedAt := none },
    campaignStatus := "running",
    dispatchCount := 0,
    snapshot := fun _ => false }

/-- Both instances run their `SELECT` before either commits its claim —
the interleaving the code does nothing to exclude. -/
def racySchedule : List Ev :=
  [Ev.select 0, Ev.select 1, Ev.process 0, Ev.process 1]

end CampaignScheduler

namespace AutomationEngine

/-!
Embedding of `app/workers/automation_engine.py` (`_check_conditions` and
the condition gate of `_process_event_async`).

The event payload is a string-keyed map of JSON scalars/lists.  A
condition's config supplies `field`, `value` and `tag`; only the entries
the condition's type reads are relevant.  Where the Python code would
raise `TypeError` inside `_check_conditions` (the `in` operator applied to
a non-container), the surrounding per-automation `try/except` skips the
rule, which at the only observable level (do the actions execute?)
coincides with the condition evaluating to `false`; those cases are
embedded as `false`.
-/

/-- A payload / config value: a string, an integer, or a list of strings
(the shape the `tags` entry takes). -/
inductive Val where
  | s (v : String)
  | i (n : ℤ)
  | strList (xs : List String)
deriving DecidableEq, Repr

/-- Python `str()` on a payload value.  List rendering follows Python's
`repr`-per-element form `[a, b]` with each string single-quoted
(approximation: assumes tag strings without quote or escape characters,
which is all the claims exercise). -/
def pyStr : Val → String
  | Val.s v => v
  | Val.i n => toString n
  | Val.strList xs =>
    "[" ++ String.intercalate ", " (xs.map (fun v => "\x27" ++ v ++ "\x27")) ++ "]"

/-- `needle` is a prefix of some suffix of `hay`. -/
def infixAux (needle : List Char) : List Char → Bool
  | [] => needle.isPrefixOf []
  | c :: rest => needle.isPrefixOf (c :: rest) || infixAux needle rest

/-- Python's `needle in hay` on strings: contiguous substring. -/
def containsSub (needle hay : String) : Bool :=
  infixAux needle.toList hay.toList

/-- `data.get(k)`. -/
def lookupField (data : List (String × Val)) (k : String) : Option Val :=
  (data.find? (fun p => p.1 = k)).map (fun p => p.2)

/-- One `AutomationCondition` row: `condition_type` plus the
`condition_config` entries the engine reads. -/
structure Condition where
  conditionType : String
  field : String
  value : Val
  tag : String
deriving DecidableEq, Repr

/-- One iteration of the condition loop in `_check_conditions`; an
unrecognized `condition_type` matches no branch and is skipped. -/
def evalCond (data : List (String × Val)) (c : Condition) : Bool :=
  if c.conditionType = "field_equals" then
    match lookupField data c.field with
    | some v => v = c.value
    | none => false  -- `data.get(field)` is None, never equal to a JSON value
  else if c.conditionType = "field_contains" then
    match c.value with
    | Val.s needle =>
      containsSub needle
        (match lookupField data c.field with
         | some v => pyStr v  -- `str(data.get(field, ""))`
         | none => "")
    | _ => false  -- `value not in <str>` with non-string value: TypeError, rule skipped
  else if c.conditionType = "tag_has" then
    match lookupField data "tags" with
    | some (Val.strList xs) => xs.contains c.tag
    | some (Val.s hay) => containsSub c.tag hay  -- Python `in` on a string field
    | some (Val.i _) => false  -- TypeError, rule skipped
    | none => false  -- `data.get("tags", [])` defaults to the empty list
  else true

/-- `_check_conditions`: AND over the ordered list; an empty list allows
execution. -/
def check_conditions (conds : List Condition) (data : List (String × Val)) : Bool :=
  conds.all (evalCond data)

/-- The action gate of `_process_event_async`: the rule's ordered actions
execute exactly when `_check_conditions` holds. -/
def runAutomation (conds : List Condition) (actions : List String)
    (data : List (String × Val)) : List String :=
  if check_conditions conds data then actions else []

/-- The per-kind meaning of one condition, spelled as the claim states it
(with the code's default of the empty string for a missing
`field_contains` field made explicit). -/
def condHolds (data : List (String × Val)) (c : Condition) : Prop :=
  (c.conditionType = "field_equals" → lookupField data c.field = some c.value) ∧
  (c.conditionType = "field_contains" →
    ∃ needle, c.value = Val.s needle ∧
      containsSub needle ((lookupField data c.field).elim "" pyStr) = true) ∧
  (c.conditionType = "tag_has" →
    (∃ xs, lookupField data "tags" = some (Val.strList xs) ∧ c.tag ∈ xs) ∨
    (∃ hay, lookupField data "tags" = some (Val.s hay) ∧
      containsSub c.tag hay = true))

end AutomationEngine

/-! ## Theorems -/

set_option maxRecDepth 100000

/-- C1: the specification requires that the transition of a target from
`pending`/`retrying` to `processing` succeed for at most one concurrent
scheduler worker.  The code claims targets with a plain unlocked `SELECT`
followed by a separate status write, so in the interleaving where both
instances run their `SELECT` before either commits, **both** enqueue
`dispatch_campaign_target` for the same pending target: the dispatch count
reaches 2, violating the single-claim invariant. -/
theorem campaign_scheduler_double_dispatch :
    (CampaignScheduler.run 0 CampaignScheduler.racySchedule
        CampaignScheduler.init).dispatchCount = 2 ∧
    (CampaignScheduler.run 0 CampaignScheduler.racySchedule
        CampaignScheduler.init).target.status = "processing" := by
  exact ⟨rfl, rfl⟩

/-- C3: the in-window test of `is_within_schedule` holds exactly when the
local weekday is allowed, `start_hour ≤ hour < end_hour`, and the local
date is not a blackout date, and the claim's concrete examples evaluate as
stated (Saturday at any hour not in window; Tuesday 10:00 in window;
Tuesday 08:00 not in window with next slot the same day at 09:00).  But
`get_next_available_time` never completes a day advance: on a Saturday —
where the claim requires walking forward to the next allowed weekday — the
code raises `AttributeError`, because `pytz` has no `timedelta` attribute
(and the walk, even as intended, never consults blackout dates). -/
theorem timezone_helper_window_and_next_slot :
    (∀ (t : TimezoneHelper.LocalTime) (sh eh : ℕ) (ad bd : List ℕ),
      TimezoneHelper.is_within_schedule t sh eh ad bd =
        (ad.contains (TimezoneHelper.weekday t) &&
          (decide (sh ≤ t.hour) && decide (t.hour < eh)) &&
          !(bd.contains t.day))) ∧
    (∀ h : Fin 24,
      TimezoneHelper.is_within_schedule ⟨5, h, 0, 0⟩ 9 17 [0, 1, 2, 3, 4] [] = false) ∧
    (TimezoneHelper.is_within_schedule ⟨1, 10, 0, 0⟩ 9 17 [0, 1, 2, 3, 4] [] = true) ∧
    (TimezoneHelper.is_within_schedule ⟨1, 8, 0, 0⟩ 9 17 [0, 1, 2, 3, 4] [] = false) ∧
    (TimezoneHelper.get_next_available_time ⟨1, 8, 0, 0⟩ 9 17 [0, 1, 2, 3, 4] =
      Except.ok ⟨1, 9, 0, 0⟩) ∧
    (∀ h : Fin 24,
      TimezoneHelper.get_next_available_time ⟨5, h, 0, 0⟩ 9 17 [0, 1, 2, 3, 4] =
        Except.error TimezoneHelper.pytzError) := by
  refine ⟨?_, by decide, by decide, by decide, rfl, by intro h; fin_cases h <;> rfl⟩
  intro t sh eh ad bd
  simp only [TimezoneHelper.is_within_schedule]
  cases h1 : ad.contains (TimezoneHelper.weekday t) <;>
    cases h2 : decide (sh ≤ t.hour) <;>
    cases h3 : decide (t.hour < eh) <;>
    cases h4 : bd.contains t.day <;>
    simp [h1, h2, h3, h4]

/-- C10: `generate_key` is deterministic (equal argument tuples give equal
keys for the fixed hash function), but not injective across tuples: the
arguments are stringified and joined with `"|"` before hashing, so the
distinct tuples `("a|b", "c")` and `("a", "b|c")` combine to the same
string `"a|b|c"` and hash to the same idempotency key, whatever the hash
function is. -/
theorem generate_key_deterministic_not_injective :
    (∀ (hash : String → String) (args1 args2 : List String), args1 = args2 →
      Idempotency.generate_key hash args1 = Idempotency.generate_key hash args2) ∧
    (∀ hash : String → String,
      Idempotency.generate_key hash ["a|b", "c"] =
        Idempotency.generate_key hash ["a", "b|c"]) ∧
    (["a|b", "c"] ≠ (["a", "b|c"] : List String)) := by
  refine ⟨fun hash args1 args2 h => by rw [h], fun hash => ?_, by decide⟩
  show hash (String.intercalate "|" ["a|b", "c"]) =
    hash (String.intercalate "|" ["a", "b|c"])
  exact congrArg hash (by decide)

/-- Witness for the hypothesis of the determinism conjunct of
`generate_key_deterministic_not_injective`, discharged at a concrete
tuple. -/
theorem generate_key_deterministic_witness :
    Idempotency.generate_key (fun s => s) ["brevo_sms", "m1", "delivered"] =
      Idempotency.generate_key (fun s => s) ["brevo_sms", "m1", "delivered"] :=
  generate_key_deterministic_not_injective.1 (fun s => s)
    ["brevo_sms", "m1", "delivered"] ["brevo_sms", "m1", "delivered"] rfl

/-- C5: `check_rate_limit` purges the entries at least `window` old, allows
exactly when the purged count is below the limit, and records the current
timestamp exactly when it allows; concretely (limit 100, window 60 s, one
call every half-second starting at 0): the first 100 calls are allowed,
the 101st — 50 s after the first, so within 60 s — is denied, and a call
at 61 s — more than 60 s after the first, once the early entries slide out
of the window — is allowed again. -/
theorem check_rate_limit_spec :
    (∀ (entries : RateLimiter.State) (now : ℚ) (limit : ℕ) (window : ℚ),
      (RateLimiter.check_rate_limit entries now limit window).1.1 =
        decide ((RateLimiter.purge entries (now - window)).length < limit)) ∧
    (∀ (entries : RateLimiter.State) (now : ℚ) (limit : ℕ) (window : ℚ),
      (RateLimiter.purge entries (now - window)).length < limit →
      (RateLimiter.check_rate_limit entries now limit window).2 =
        RateLimiter.zadd (RateLimiter.purge entries (now - window)) now) ∧
    (∀ (entries : RateLimiter.State) (now : ℚ) (limit : ℕ) (window : ℚ),
      ¬(RateLimiter.purge entries (now - window)).length < limit →
      (RateLimiter.check_rate_limit entries now limit window).2 =
        RateLimiter.purge entries (now - window)) ∧
    ((RateLimiter.runCalls [] 100 60 RateLimiter.burstTimes).1 =
      List.replicate 100 true ++ [false]) ∧
    (∀ t ∈ RateLimiter.burstTimes, 0 ≤ t ∧ t - 0 < 60) ∧
    ((RateLimiter.check_rate_limit
        (RateLimiter.runCalls [] 100 60 RateLimiter.burstTimes).2
        61 100 60).1.1 = true) ∧
    ((61 : ℚ) - 0 > 60) := by
  refine ⟨?_, ?_, ?_, by decide, by decide, by decide, by norm_num⟩ <;>
    · intro entries now limit window
      simp only [RateLimiter.check_rate_limit]
      split <;> simp_all

/-- Witness for the hypotheses of `check_rate_limit_spec` (the allowed and
denied branches of the state-update conjuncts, at concrete inputs). -/
theorem check_rate_limit_spec_witness :
    (RateLimiter.check_rate_limit [] 0 100 60).2 =
      RateLimiter.zadd (RateLimiter.purge [] (0 - 60)) 0 ∧
    (RateLimiter.check_rate_limit [5] 6 0 60).2 =
      RateLimiter.purge [5] (6 - 60) :=
  ⟨check_rate_limit_spec.2.1 [] 0 100 60 (by decide),
   check_rate_limit_spec.2.2.1 [5] 6 0 60 (by decide)⟩

/-- C7: when the rate limiter denies the tenant/channel key, the dispatcher
only reschedules the target one minute (60 s) out: `status`,
`attempt_count`, `last_attempt_at` and `extra_data` are all left untouched,
so no retry attempt is consumed. -/
theorem dispatcher_rate_limit_defers_without_consuming_attempt :
    ∀ (target : SmartDispatcher.Target) (channel : String)
      (strategy : SmartDispatcher.RetryStrategy) (rl : RateLimiter.State)
      (now : ℚ) (sendOk : Bool) (errMsg : String),
      (RateLimiter.check_rate_limit rl now 100 60).1.1 = false →
      (SmartDispatcher.dispatch_campaign_target target channel strategy rl
          now sendOk errMsg).1 =
        { target with nextAttemptAt := some (now + 60) } ∧
      (SmartDispatcher.dispatch_campaign_target target channel strategy rl
          now sendOk errMsg).1.status = target.status ∧
      (SmartDispatcher.dispatch_campaign_target target channel strategy rl
          now sendOk errMsg).1.attemptCount = target.attemptCount ∧
      (SmartDispatcher.dispatch_campaign_target target channel strategy rl
          now sendOk errMsg).1.lastAttemptAt = target.lastAttemptAt ∧
      (SmartDispatcher.dispatch_campaign_target target channel strategy rl
          now sendOk errMsg).1.extraData = target.extraData := by
  intro target channel strategy rl now sendOk errMsg h
  simp [SmartDispatcher.dispatch_campaign_target, h]

/-- Witness for `dispatcher_rate_limit_defers_without_consuming_attempt`:
a key already holding 100 in-window entries denies the 101st caller, and
the target emerges with only `next_attempt_at` moved. -/
theorem dispatcher_rate_limit_deferral_witness :
    (SmartDispatcher.dispatch_campaign_target
        ⟨"processing", 2, none, none, []⟩ "sms" ⟨none, none⟩
        ((List.range 100).map (fun k => (k : ℚ))) 50 true "").1 =
      ⟨"processing", 2, some (50 + 60), none, []⟩ :=
  (dispatcher_rate_limit_defers_without_consuming_attempt
    ⟨"processing", 2, none, none, []⟩ "sms" ⟨none, none⟩
    ((List.range 100).map (fun k => (k : ℚ))) 50 true "" (by decide)).1

/-- C6: for a key not yet marked, the first `process_once` executes the
guarded function and stores its result under the key with expiry
`now + ttl` (default ttl 24 h); a second sequential run before the expiry
returns the stored result without executing the function again, and a run
at or after the expiry treats the delivery as new and executes again.
(The stored value is `str(result) or "processed"`, which equals the
result itself whenever the result is a non-empty string.) -/
theorem process_once_runs_exactly_once :
    ∀ (st : Idempotency.Store) (ttl : ℚ) (key : String) (f : Unit → String)
      (now now2 : ℚ),
      Idempotency.is_processed st key now = false →
      ((Idempotency.process_once st ttl key f now).2.2 = true ∧
        (Idempotency.process_once st ttl key f now).1 = some (f ())) ∧
      (Idempotency.redisGet (Idempotency.process_once st ttl key f now).2.1
          ("idempotency:" ++ key) now2 =
        if now2 < now + ttl then some (Idempotency.storedValue (some (f ())))
        else none) ∧
      (now2 < now + ttl →
        Idempotency.process_once (Idempotency.process_once st ttl key f now).2.1
            ttl key f now2 =
          (some (Idempotency.storedValue (some (f ()))),
            (Idempotency.process_once st ttl key f now).2.1, false)) ∧
      (f () ≠ "" → Idempotency.storedValue (some (f ())) = f ()) ∧
      (now + ttl ≤ now2 →
        (Idempotency.process_once (Idempotency.process_once st ttl key f now).2.1
            ttl key f now2).2.2 = true) := by
  intro st ttl key f now now2 h
  have hstore : (Idempotency.process_once st ttl key f now).2.1 =
      ("idempotency:" ++ key, Idempotency.storedValue (some (f ())), now + ttl) ::
        st.filter (fun e => !(decide (e.1 = "idempotency:" ++ key))) := by
    simp [Idempotency.process_once, h, Idempotency.mark_processed,
      Idempotency.redisSet]
  have hget : ∀ t : ℚ,
      Idempotency.redisGet (Idempotency.process_once st ttl key f now).2.1
        ("idempotency:" ++ key) t =
      if t < now + ttl then some (Idempotency.storedValue (some (f ()))) else none := by
    intro t
    rw [hstore]
    simp [Idempotency.redisGet]
  refine ⟨⟨by simp [Idempotency.process_once, h], by simp [Idempotency.process_once, h]⟩,
    hget now2, ?_, ?_, ?_⟩
  · intro hlt
    set st1 := (Idempotency.process_once st ttl key f now).2.1 with hst1
    have hproc : Idempotency.is_processed st1 key now2 = true := by
      simp [Idempotency.is_processed, hget now2, hlt]
    simp only [Idempotency.process_once, hproc, if_true, Idempotency.get_result,
      hget now2, if_pos hlt]
  · intro hne
    simp [Idempotency.storedValue, hne]
  · intro hge
    set st1 := (Idempotency.process_once st ttl key f now).2.1 with hst1
    have hproc : Idempotency.is_processed st1 key now2 = false := by
      simp [Idempotency.is_processed, hget now2, not_lt.mpr hge]
    simp only [Idempotency.process_once, hproc, Bool.false_eq_true, if_false]

/-- Witness for `process_once_runs_exactly_once`: a fresh store, a guarded
function returning `"42"`, first run at `t = 0` with ttl 86400, second run
at `t = 1`. -/
theorem process_once_runs_exactly_once_witness :
    ((Idempotency.process_once [] 86400 "k" (fun _ => "42") 0).2.2 = true ∧
      (Idempotency.process_once [] 86400 "k" (fun _ => "42") 0).1 = some "42") ∧
    (Idempotency.redisGet (Idempotency.process_once [] 86400 "k"
        (fun _ => "42") 0).2.1 ("idempotency:" ++ "k") 1 =
      if (1 : ℚ) < 0 + 86400 then some (Idempotency.storedValue (some "42"))
      else none) ∧
    ((1 : ℚ) < 0 + 86400 →
      Idempotency.process_once (Idempotency.process_once [] 86400 "k"
          (fun _ => "42") 0).2.1 86400 "k" (fun _ => "42") 1 =
        (some (Idempotency.storedValue (some "42")),
          (Idempotency.process_once [] 86400 "k" (fun _ => "42") 0).2.1, false)) ∧
    ("42" ≠ "" → Idempotency.storedValue (some "42") = "42") ∧
    ((0 : ℚ) + 86400 ≤ 1 →
      (Idempotency.process_once (Idempotency.process_once [] 86400 "k"
          (fun _ => "42") 0).2.1 86400 "k" (fun _ => "42") 1).2.2 = true) :=
  process_once_runs_exactly_once [] 86400 "k" (fun _ => "42") 0 1 (by decide)

/-- C2: `_handle_dispatch_failure` increments `attempt_count` by one and
stamps `last_attempt_at`; the target ends `failed` — with
`max_retries_exceeded` recorded in `extra_data` — exactly when the
incremented `attempt_count` reaches the campaign's `max_attempts` (default
3), and otherwise ends `retrying` with
`next_attempt_at = now + delays[min(attempt_count - 1, len(delays) - 1)]`
minutes (60 s per minute), the delay list defaulting to `[30, 120, 360]`
and its last entry being reused once the index runs past the end.
The non-emptiness hypothesis mirrors Python, which would raise
`IndexError` indexing an empty delay list. -/
theorem handle_dispatch_failure_retry_policy :
    ∀ (target : SmartDispatcher.Target) (strategy : SmartDispatcher.RetryStrategy)
      (error : String) (now : ℚ),
      strategy.delaysMinutes.getD [30, 120, 360] ≠ [] →
      ((SmartDispatcher.handle_dispatch_failure target strategy error now).attemptCount =
          target.attemptCount + 1) ∧
      ((SmartDispatcher.handle_dispatch_failure target strategy error now).lastAttemptAt =
          some now) ∧
      ((SmartDispatcher.handle_dispatch_failure target strategy error now).status =
          "failed" ↔ strategy.maxAttempts.getD 3 ≤ target.attemptCount + 1) ∧
      (strategy.maxAttempts.getD 3 ≤ target.attemptCount + 1 →
        SmartDispatcher.getExtra
            (SmartDispatcher.handle_dispatch_failure target strategy error now).extraData
            "max_retries_exceeded" = some "True") ∧
      (target.attemptCount + 1 < strategy.maxAttempts.getD 3 →
        (SmartDispatcher.handle_dispatch_failure target strategy error now).status =
            "retrying" ∧
        (SmartDispatcher.handle_dispatch_failure target strategy error now).nextAttemptAt =
          some (now + 60 * ((strategy.delaysMinutes.getD [30, 120, 360]).getD
            (min (target.attemptCount + 1 - 1)
              ((strategy.delaysMinutes.getD [30, 120, 360]).length - 1)) 0 : ℚ))) := by
  intro target strategy error now _hne
  simp only [SmartDispatcher.handle_dispatch_failure]
  by_cases hmax : strategy.maxAttempts.getD 3 ≤ target.attemptCount + 1
  · refine ⟨by simp [hmax], by simp [hmax], by simp [hmax], ?_, ?_⟩
    · intro _
      simp [hmax, SmartDispatcher.getExtra, SmartDispatcher.setExtra]
    · intro hlt
      omega
  · have hmax2 : ¬(strategy.maxAttempts.getD 3 ≤ target.attemptCount + 1) := hmax
    refine ⟨by simp [hmax2], by simp [hmax2], by simp [hmax2], ?_, ?_⟩
    · intro hc; exact absurd hc hmax2
    · intro _
      simp [hmax2]

/-- Witness for `handle_dispatch_failure_retry_policy`, exercising both
branches: a target at `attempt_count = 0` (first failure, retries in 30
minutes) and a target at `attempt_count = 2` (third failure, fails with
`max_retries_exceeded`) under the default strategy. -/
theorem handle_dispatch_failure_retry_policy_witness :
    ((SmartDispatcher.handle_dispatch_failure ⟨"processing", 0, none, none, []⟩
        ⟨none, none⟩ "busy" 100).status = "retrying" ∧
      (SmartDispatcher.handle_dispatch_failure ⟨"processing", 0, none, none, []⟩
        ⟨none, none⟩ "busy" 100).nextAttemptAt =
        some (100 + 60 * (([30, 120, 360] : List ℕ).getD (min 0 2) 0 : ℚ))) ∧
    ((SmartDispatcher.handle_dispatch_failure ⟨"processing", 2, none, none, []⟩
        ⟨none, none⟩ "busy" 100).status = "failed" ∧
      SmartDispatcher.getExtra
        (SmartDispatcher.handle_dispatch_failure ⟨"processing", 2, none, none, []⟩
          ⟨none, none⟩ "busy" 100).extraData "max_retries_exceeded" = some "True") := by
  have h1 := handle_dispatch_failure_retry_policy ⟨"processing", 0, none, none, []⟩
    ⟨none, none⟩ "busy" 100 (by decide)
  have h2 := handle_dispatch_failure_retry_policy ⟨"processing", 2, none, none, []⟩
    ⟨none, none⟩ "busy" 100 (by decide)
  exact ⟨⟨(h1.2.2.2.2 (by decide)).1, (h1.2.2.2.2 (by decide)).2⟩,
    ⟨h2.2.2.1.mpr (by decide), h2.2.2.2.1 (by decide)⟩⟩

/-- One condition's loop iteration agrees with its per-kind reading. -/
theorem evalCond_iff_condHolds (data : List (String × AutomationEngine.Val))
    (c : AutomationEngine.Condition) :
    AutomationEngine.evalCond data c = true ↔ AutomationEngine.condHolds data c := by
  by_cases h1 : c.conditionType = "field_equals"
  · cases hl : AutomationEngine.lookupField data c.field with
    | none => simp [AutomationEngine.evalCond, AutomationEngine.condHolds, h1, hl]
    | some v => simp [AutomationEngine.evalCond, AutomationEngine.condHolds, h1, hl]
  · by_cases h2 : c.conditionType = "field_contains"
    · cases hv : c.value with
      | s needle =>
        cases hl : AutomationEngine.lookupField data c.field with
        | none =>
          simp [AutomationEngine.evalCond, AutomationEngine.condHolds, h1, h2, hv, hl]
        | some v =>
          simp [AutomationEngine.evalCond, AutomationEngine.condHolds, h1, h2, hv, hl]
      | i n => simp [AutomationEngine.evalCond, AutomationEngine.condHolds, h1, h2, hv]
      | strList xs =>
        simp [AutomationEngine.evalCond, AutomationEngine.condHolds, h1, h2, hv]
    · by_cases h3 : c.conditionType = "tag_has"
      · cases hl : AutomationEngine.lookupField data "tags" with
        | none =>
          simp [AutomationEngine.evalCond, AutomationEngine.condHolds, h1, h2, h3, hl]
        | some v =>
          cases v <;>
            simp [AutomationEngine.evalCond, AutomationEngine.condHolds, h1, h2, h3, hl]
      · simp [AutomationEngine.evalCond, AutomationEngine.condHolds, h1, h2, h3]

/-- C8 counterexample: the claim says a condition whose field is absent
from the payload blocks all actions, but a `field_contains` condition with
an empty configured value matches an absent field (the code stringifies
the missing field to `""`, and `"" in ""` holds in Python), so the rule's
actions execute. -/
theorem automation_absent_field_fires_counterexample :
    AutomationEngine.lookupField ([] : List (String × AutomationEngine.Val)) "x" = none ∧
    AutomationEngine.runAutomation
      [⟨"field_contains", "x", AutomationEngine.Val.s "", "vip"⟩]
      ["send_welcome_email"] [] = ["send_welcome_email"] := by
  exact ⟨rfl, rfl⟩

/-- C8 (amended): a rule's actions execute only if every condition in its
ordered list holds (AND semantics), where `field_equals` requires the
payload field to be present and equal, `field_contains` requires the
configured string to be a substring of the stringified payload field (an
absent field stringifying to `""`), and `tag_has` requires membership in
the payload's tags; a `field_equals` condition with an absent field, a
`tag_has` condition with absent tags, and a `field_contains` condition
with an absent field and a non-empty configured value each block every
action — the empty-value `field_contains` case being the sole exception
to the claim's absence clause. -/
theorem automation_conditions_and_semantics :
    (∀ (conds : List AutomationEngine.Condition)
        (data : List (String × AutomationEngine.Val)),
      AutomationEngine.check_conditions conds data = true ↔
        ∀ c ∈ conds, AutomationEngine.condHolds data c) ∧
    (∀ (conds : List AutomationEngine.Condition) (actions : List String)
        (data : List (String × AutomationEngine.Val)),
      AutomationEngine.check_conditions conds data = false →
      AutomationEngine.runAutomation conds actions data = []) ∧
    (∀ (conds : List AutomationEngine.Condition) (actions : List String)
        (data : List (String × AutomationEngine.Val))
        (c : AutomationEngine.Condition), c ∈ conds →
      ((c.conditionType = "field_equals" ∧
          AutomationEngine.lookupField data c.field = none) ∨
       (c.conditionType = "field_contains" ∧
          AutomationEngine.lookupField data c.field = none ∧
          c.value ≠ AutomationEngine.Val.s "") ∨
       (c.conditionType = "tag_has" ∧
          AutomationEngine.lookupField data "tags" = none)) →
      AutomationEngine.runAutomation conds actions data = []) := by
  refine ⟨?_, ?_, ?_⟩
  · intro conds data
    simp only [AutomationEngine.check_conditions, List.all_eq_true]
    exact forall₂_congr (fun c _ => evalCond_iff_condHolds data c)
  · intro conds actions data h
    simp [AutomationEngine.runAutomation, h]
  · intro conds actions data c hc hdisj
    have hfalse : AutomationEngine.evalCond data c = false := by
      rcases hdisj with ⟨h1, h2⟩ | ⟨h1, h2, h3⟩ | ⟨h1, h2⟩
      · simp [AutomationEngine.evalCond, h1, h2]
      · cases hv : c.value with
        | s needle =>
          have hne : needle ≠ "" := fun hcontra => h3 (by rw [hv, hcontra])
          have hlist : needle.toList ≠ [] := by
            intro hcontra
            exact hne (by
              have := congrArg (fun l => String.mk l) hcontra
              simpa using this)
          simp only [AutomationEngine.evalCond, h1, if_false, h2, hv, if_true]
          cases hchars : needle.toList with
          | nil => exact absurd hchars hlist
          | cons a as =>
            simp only [AutomationEngine.containsSub, AutomationEngine.infixAux]
            rw [show needle.toList = a :: as from hchars]
            rfl
        | i n => simp [AutomationEngine.evalCond, h1, h2, hv]
        | strList xs => simp [AutomationEngine.evalCond, h1, h2, hv]
      · simp [AutomationEngine.evalCond, h1, h2]
    have hcheck : AutomationEngine.check_conditions conds data = false := by
      rw [← Bool.not_eq_true, AutomationEngine.check_conditions, List.all_eq_true]
      intro hall
      have := hall c hc
      rw [hfalse] at this
      exact Bool.false_ne_true this
    simp [AutomationEngine.runAutomation, hcheck]

/-- Witness for the hypotheses of `automation_conditions_and_semantics`:
a `field_equals` condition on a field the payload lacks blocks the rule's
actions. -/
theorem automation_conditions_and_semantics_witness :
    AutomationEngine.runAutomation
      [⟨"field_equals", "status", AutomationEngine.Val.s "qualified", ""⟩]
      ["send_welcome_email"] [("other", AutomationEngine.Val.i 1)] = [] :=
  automation_conditions_and_semantics.2.2
    [⟨"field_equals", "status", AutomationEngine.Val.s "qualified", ""⟩]
    ["send_welcome_email"] [("other", AutomationEngine.Val.i 1)]
    ⟨"field_equals", "status", AutomationEngine.Val.s "qualified", ""⟩
    (List.mem_singleton.mpr rfl) (Or.inl ⟨rfl, rfl⟩)

/-- C9: a rule with an empty condition list always fires, and a condition
of unrecognized kind is skipped and never blocks, so a rule whose
conditions are all unrecognized also fires for every payload. -/
theorem automation_empty_or_unrecognized_conditions_fire :
    (∀ (data : List (String × AutomationEngine.Val)) (actions : List String),
      AutomationEngine.runAutomation [] actions data = actions) ∧
    (∀ (conds : List AutomationEngine.Condition)
        (data : List (String × AutomationEngine.Val)) (actions : List String),
      (∀ c ∈ conds, c.conditionType ≠ "field_equals" ∧
        c.conditionType ≠ "field_contains" ∧ c.conditionType ≠ "tag_has") →
      AutomationEngine.runAutomation conds actions data = actions) := by
  constructor
  · intro data actions
    rfl
  · intro conds data actions h
    have hall : AutomationEngine.check_conditions conds data = true := by
      rw [AutomationEngine.check_conditions, List.all_eq_true]
      intro c hc
      obtain ⟨h1, h2, h3⟩ := h c hc
      simp [AutomationEngine.evalCond, h1, h2, h3]
    simp [AutomationEngine.runAutomation, hall]

/-- Witness for `automation_empty_or_unrecognized_conditions_fire`: a rule
whose only condition has the unrecognized kind `"time_range"` fires
unconditionally. -/
theorem automation_unrecognized_condition_witness :
    AutomationEngine.runAutomation
      [⟨"time_range", "f", AutomationEngine.Val.s "v", "t"⟩]
      ["send_sms"] [] = ["send_sms"] :=
  automation_empty_or_unrecognized_conditions_fire.2
    [⟨"time_range", "f", AutomationEngine.Val.s "v", "t"⟩] [] ["send_sms"]
    (fun c hc => by
      rw [List.mem_singleton] at hc
      subst hc
      exact ⟨by decide, by decide, by decide⟩)

/-- Unfolding a step of `record_failures`. -/
theorem record_failures_cons (cfg : CircuitBreaker.Config)
    (st : CircuitBreaker.BreakerState) (t : ℚ) (ts : List ℚ) :
    CircuitBreaker.record_failures cfg st (t :: ts) =
      CircuitBreaker.record_failures cfg (CircuitBreaker.record_failure cfg st t) ts :=
  rfl

/-- Once the stored state is `open`, further failures keep it `open`. -/
theorem record_failures_opn_persists (cfg : CircuitBreaker.Config) (ts : List ℚ) :
    ∀ st : CircuitBreaker.BreakerState,
      st.state = some CircuitBreaker.CircuitState.opn →
      (CircuitBreaker.record_failures cfg st ts).state =
        some CircuitBreaker.CircuitState.opn := by
  induction ts with
  | nil => intro st h; exact h
  | cons t ts ih =>
    intro st h
    rw [record_failures_cons]
    apply ih
    simp only [CircuitBreaker.record_failure]
    split <;> simp [h]

/-- The failure counter after one failure at time `t`. -/
theorem record_failure_failures (cfg : CircuitBreaker.Config)
    (st : CircuitBreaker.BreakerState) (t : ℚ) :
    (CircuitBreaker.record_failure cfg st t).failures =
      some (CircuitBreaker.effFailures st t + 1, t + cfg.recoveryTimeout) := by
  simp only [CircuitBreaker.record_failure]
  split <;> rfl

/-- Failures recorded consecutively (each before the previous counter
expires) accumulate until the threshold is crossed, at which point the
stored state becomes `open`. -/
theorem record_failures_opens (cfg : CircuitBreaker.Config) :
    ∀ (ts : List ℚ) (st : CircuitBreaker.BreakerState) (c : ℕ),
      (∀ t, ts.head? = some t → CircuitBreaker.effFailures st t = c) →
      List.Chain' (fun a b => b < a + cfg.recoveryTimeout) ts →
      c < cfg.failureThreshold →
      cfg.failureThreshold ≤ c + ts.length →
      (CircuitBreaker.record_failures cfg st ts).state =
        some CircuitBreaker.CircuitState.opn := by
  intro ts
  induction ts with
  | nil =>
    intro st c _ _ hlt hge
    simp only [List.length_nil, Nat.add_zero] at hge
    omega
  | cons t ts ih =>
    intro st c hhead hchain hlt hge
    have heff : CircuitBreaker.effFailures st t = c := hhead t rfl
    have hfail := record_failure_failures cfg st t
    rw [heff] at hfail
    rw [record_failures_cons]
    by_cases hth : cfg.failureThreshold ≤ c + 1
    · have hst : (CircuitBreaker.record_failure cfg st t).state =
          some CircuitBreaker.CircuitState.opn := by
        simp [CircuitBreaker.record_failure, heff, hth]
      exact record_failures_opn_persists cfg ts _ hst
    · obtain ⟨hrel, htail⟩ := List.chain'_cons'.mp hchain
      apply ih (CircuitBreaker.record_failure cfg st t) (c + 1) ?_ htail (by omega)
        (by simpa [Nat.add_comm, Nat.add_left_comm] using hge)
      intro u hu
      have hu_rel : u < t + cfg.recoveryTimeout := hrel u hu
      simp [CircuitBreaker.effFailures, hfail, hu_rel]

/-- C4: for every breaker name (one `BreakerState` record): (a) after
`failure_threshold` consecutive `record_failure` calls — each arriving
before the previous counter's `recovery_timeout` expiry — the stored state
is `open`; (b) `call` while the state is `open` and the timeout has not
elapsed raises immediately, leaving the state untouched and never invoking
the wrapped function (the result is `raisedOpn` whatever the function
would do); (c) once `recovery_timeout` has elapsed since the last recorded
failure, the next `get_state` lazily rewrites `open` to `half_open`; and
(d) a call that succeeds (in any state `get_state` does not report as
`open`) forces `closed` with the failure counter deleted, i.e. reading 0
at every instant. -/
theorem circuit_breaker_spec (cfg : CircuitBreaker.Config)
    (hth : 0 < cfg.failureThreshold) :
    (∀ ts : List ℚ,
      List.Chain' (fun a b => b < a + cfg.recoveryTimeout) ts →
      cfg.failureThreshold ≤ ts.length →
      (CircuitBreaker.record_failures cfg CircuitBreaker.initial ts).state =
        some CircuitBreaker.CircuitState.opn) ∧
    (∀ (st : CircuitBreaker.BreakerState) (now lf : ℚ) (ok : Bool),
      st.state = some CircuitBreaker.CircuitState.opn →
      st.lastFailure = some lf →
      now - lf < cfg.recoveryTimeout →
      CircuitBreaker.call cfg st now ok = (CircuitBreaker.CallResult.raisedOpn, st)) ∧
    (∀ (st : CircuitBreaker.BreakerState) (now lf : ℚ),
      st.state = some CircuitBreaker.CircuitState.opn →
      st.lastFailure = some lf →
      cfg.recoveryTimeout ≤ now - lf →
      CircuitBreaker.get_state cfg st now =
        (CircuitBreaker.CircuitState.halfOpen,
          { st with state := some CircuitBreaker.CircuitState.halfOpen })) ∧
    (∀ (st : CircuitBreaker.BreakerState) (now : ℚ),
      (CircuitBreaker.get_state cfg st now).1 ≠ CircuitBreaker.CircuitState.opn →
      (CircuitBreaker.call cfg st now true).1 = CircuitBreaker.CallResult.returned ∧
      (CircuitBreaker.call cfg st now true).2.state =
        some CircuitBreaker.CircuitState.closed ∧
      (CircuitBreaker.call cfg st now true).2.failures = none ∧
      ∀ t : ℚ, CircuitBreaker.effFailures (CircuitBreaker.call cfg st now true).2 t = 0) := by
  refine ⟨?_, ?_, ?_, ?_⟩
  · intro ts hchain hlen
    exact record_failures_opens cfg ts CircuitBreaker.initial 0
      (fun t _ => rfl) hchain hth (by omega)
  · intro st now lf ok hst hlf hlt
    have hget : CircuitBreaker.get_state cfg st now = (CircuitBreaker.CircuitState.opn, st) := by
      simp [CircuitBreaker.get_state, hst, hlf, not_le.mpr hlt]
    simp [CircuitBreaker.call, hget]
  · intro st now lf hst hlf hge
    simp [CircuitBreaker.get_state, hst, hlf, hge]
  · intro st now hne
    have hcall : CircuitBreaker.call cfg st now true =
        (CircuitBreaker.CallResult.returned,
          CircuitBreaker.record_success (CircuitBreaker.get_state cfg st now).2) := by
      simp only [CircuitBreaker.call]
      rw [if_neg hne]
      simp
    refine ⟨by rw [hcall], by rw [hcall]; rfl, by rw [hcall]; rfl, ?_⟩
    intro t
    rw [hcall]
    rfl

/-- Witness for `circuit_breaker_spec` at the default configuration
(threshold 5, recovery timeout 60 s): five failures one second apart open
the circuit; a call 30 s after the last failure is rejected with the state
untouched; a check 60 s after the last failure reports `half_open`; and a
successful call from `half_open` returns `closed` with the counter gone. -/
theorem circuit_breaker_spec_witness :
    ((CircuitBreaker.record_failures {} CircuitBreaker.initial [0, 1, 2, 3, 4]).state =
      some CircuitBreaker.CircuitState.opn) ∧
    (CircuitBreaker.call {} ⟨some CircuitBreaker.CircuitState.opn, some (5, 64), some 4⟩
        34 true = (CircuitBreaker.CallResult.raisedOpn,
          ⟨some CircuitBreaker.CircuitState.opn, some (5, 64), some 4⟩)) ∧
    (CircuitBreaker.get_state {} ⟨some CircuitBreaker.CircuitState.opn, some (5, 64), some 4⟩
        64 = (CircuitBreaker.CircuitState.halfOpen,
          ⟨some CircuitBreaker.CircuitState.halfOpen, some (5, 64), some 4⟩)) ∧
    ((CircuitBreaker.call {} ⟨some CircuitBreaker.CircuitState.halfOpen, some (5, 64), some 4⟩
        64 true).2.state = some CircuitBreaker.CircuitState.closed ∧
      (CircuitBreaker.call {} ⟨some CircuitBreaker.CircuitState.halfOpen, some (5, 64), some 4⟩
        64 true).2.failures = none) := by
  have h := circuit_breaker_spec {} (by decide)
  refine ⟨h.1 [0, 1, 2, 3, 4] ?_ (by decide), ?_, ?_, ?_⟩
  · refine List.chain'_cons.mpr ⟨by norm_num, ?_⟩
    refine List.chain'_cons.mpr ⟨by norm_num, ?_⟩
    refine List.chain'_cons.mpr ⟨by norm_num, ?_⟩
    refine List.chain'_cons.mpr ⟨by norm_num, ?_⟩
    exact List.chain'_singleton 4
  · exact h.2.1 ⟨some CircuitBreaker.CircuitState.opn, some (5, 64), some 4⟩ 34 4 true
      rfl rfl (by norm_num)
  · exact h.2.2.1 ⟨some CircuitBreaker.CircuitState.opn, some (5, 64), some 4⟩ 64 4
      rfl rfl (by norm_num)
  · have hd := h.2.2.2 ⟨some CircuitBreaker.CircuitState.halfOpen, some (5, 64), some 4⟩
      64 (by decide)
    exact ⟨hd.2.1, hd.2.2.1⟩
